import Mathlib

/-!
Shallow embedding of the `nulls` crate: a tri-state container `Null T`
with variants `Undefined` (absent), `Null` (explicit null) and `Value v`,
plus its conversions, combinators, serde (de)serialization and
sqlx/Postgres encode/decode contracts, translated from `src/lib.rs`
(the same impls are duplicated in `src/conversions.rs` and
`src/impls.rs`).
-/

namespace Nulls

/-- Embedding of `serde_json::Value`: the structured wire values the
serde collaborator hands to `Null::deserialize`. -/
inductive JValue where
  | null
  | bool (b : Bool)
  | num (n : Int)
  | str (s : String)
  | arr (elems : List JValue)
  | obj (fields : List (String × JValue))

/-- The tri-state container from `src/lib.rs`:
`Undefined` = field absent, `Null` = explicit null, `Value v` = value. -/
inductive Null (T : Type) where
  | Undefined
  | Null
  | Value (value : T)
deriving DecidableEq

/-- `Null::update_to(self, value: &mut Option<T>)`, with the mutable
slot passed as explicit state: returns the slot contents after the call. -/
def Null.update_to {T : Type} (s : Nulls.Null T) (value : Option T) : Option T :=
  match s with
  | .Value new => some new
  | .Null => none
  | .Undefined => value

/-- `impl Serialize for Null<T>`: `Value(v)` serializes as `v` itself
(via `T`'s serializer `serT`); both other variants call
`serialize_none`, the wire-level null marker. -/
def Null.serialize {T : Type} (s : Nulls.Null T) (serT : T → JValue) : JValue :=
  match s with
  | .Value value => serT value
  | _ => JValue.null

/-- `impl Deserialize for Null<T>`: first `Value::deserialize` runs on
the raw input (`raw`, an `Except` like the Rust `Result`); a wire `null`
yields `Null`, any other structured value is fed to `T`'s deserializer
`dec`, whose success yields `Value` and whose failure yields
`Undefined`; an unreadable raw input also yields `Undefined`. -/
def Null.deserialize {T : Type} (dec : JValue → Except String T)
    (raw : Except String JValue) : Except String (Nulls.Null T) :=
  match raw with
  | .ok json =>
    match json with
    | .null => .ok .Null
    | j =>
      match dec j with
      | .ok value => .ok (.Value value)
      | .error _ => .ok .Undefined
  | .error _ => .ok .Undefined

/-- `sqlx::encode::IsNull`. -/
inductive IsNull where
  | yes
  | no
deriving DecidableEq

/-- `impl Encode<'q, Postgres> for Null<T>` (`encode_by_ref`): the
argument buffer is passed as explicit state of type `β`; `encT` is
`T`'s own `encode_by_ref`. `Value(v)` delegates to `encT`; `Undefined`
and `Null` leave the buffer untouched and report `IsNull::Yes`. -/
def Null.encode_by_ref {T β : Type} (s : Nulls.Null T)
    (encT : T → β → β × Except String IsNull) (buf : β) :
    β × Except String IsNull :=
  match s with
  | .Value value => encT value buf
  | _ => (buf, .ok IsNull.yes)

/-- Embedding of `sqlx::postgres::PgValueRef`: a nullability flag plus
an opaque raw column payload of type `α`. -/
structure PgValueRef (α : Type) where
  is_null : Bool
  raw : α

/-- `impl Decode<'r, Postgres> for Null<T>`: a NULL column decodes to
`Null`; otherwise `T`'s decoder `decT` runs and its result is wrapped
in `Value` (errors propagate through `Except.map`). -/
def Null.decode {α T : Type} (decT : PgValueRef α → Except String T)
    (value : PgValueRef α) : Except String (Nulls.Null T) :=
  if value.is_null then .ok .Null
  else (decT value).map Null.Value

/-- `impl From<Null<T>> for Option<Option<T>>`. -/
def Null.toNestedOption {T : Type} : Nulls.Null T → Option (Option T)
  | .Undefined => none
  | .Null => some none
  | .Value value => some (some value)

/-- `impl From<Option<Option<T>>> for Null<T>`. -/
def Null.fromNestedOption {T : Type} : Option (Option T) → Nulls.Null T
  | some (some value) => .Value value
  | some none => .Null
  | none => .Undefined

/-- `impl From<Option<T>> for Null<T>`. -/
def Null.fromOption {T : Type} : Option T → Nulls.Null T
  | some value => .Value value
  | none => .Undefined

/-- `impl From<Result<T, Error>> for Null<T>`: `Ok` wraps in `Value`,
any error becomes `Null`. The sqlx error type is abstracted as `ε`. -/
def Null.fromResult {T ε : Type} : Except ε T → Nulls.Null T
  | .ok data => .Value data
  | _ => .Null

/-- `sqlx::types::Json<T>`: a transparent single-field wrapper. -/
structure Json (T : Type) where
  val : T

/-- `impl From<Result<Json<T>, Error>> for Null<T>`: `Ok` unwraps the
`Json` wrapper and wraps in `Value`, any error becomes `Null`. -/
def Null.fromResultJson {T ε : Type} : Except ε (Json T) → Nulls.Null T
  | .ok data => .Value data.val
  | _ => .Null

/-- `Null::contains(&self, x: &Option<U>)` with `U = T` and Lean's
decidable equality standing for `PartialEq`. -/
def Null.contains {T : Type} [DecidableEq T] (s : Nulls.Null T) (x : Option T) : Bool :=
  match s with
  | .Value y =>
    match x with
    | some v => decide (v = y)
    | none => false
  | .Null => x.isNone
  | .Undefined => false

/-- `Null::contains_value(&self, x: &U)` with `U = T`. -/
def Null.contains_value {T : Type} [DecidableEq T] (s : Nulls.Null T) (x : T) : Bool :=
  match s with
  | .Value y => decide (x = y)
  | _ => false

/-- `Null::map`: feeds `Some(v)` (for `Value`) or `None` (for `Null`)
to `f`; a `Some` result becomes `Value`, a `None` result becomes
`Null`; `Undefined` passes through without calling `f`. -/
def Null.map {T U : Type} (s : Nulls.Null T) (f : Option T → Option U) : Nulls.Null U :=
  match s with
  | .Value v =>
    match f (some v) with
    | some u => .Value u
    | none => .Null
  | .Null =>
    match f none with
    | some u => .Value u
    | none => .Null
  | .Undefined => .Undefined

/-- `Null::map_value`. -/
def Null.map_value {T U : Type} (s : Nulls.Null T) (f : T → U) : Nulls.Null U :=
  match s with
  | .Value v => .Value (f v)
  | .Null => .Null
  | .Undefined => .Undefined

/-- `Null::take`. -/
def Null.take {T : Type} : Nulls.Null T → Option T
  | .Value value => some value
  | _ => none

/-- Concrete serde serializer for `T = Nat`, used to instantiate the
wire round-trip theorem. -/
def serNat : Nat → JValue :=
  fun n => JValue.num (Int.ofNat n)

/-- Concrete serde deserializer for `T = Nat`, inverse of `serNat` on
its image. -/
def decNat : JValue → Except String Nat
  | JValue.num (Int.ofNat n) => .ok n
  | _ => .error "invalid type"

/-- C1: `update_to` applies patch semantics in place: `Value v` sets the
slot to `some v`, `Null` (explicit null) clears it to `none`, and
`Undefined` (absent) leaves the slot exactly as it was. -/
theorem update_to_patch_semantics {T : Type} (v : T) (slot : Option T) :
    (Null.Value v).update_to slot = some v ∧
    (Null.Null : Nulls.Null T).update_to slot = none ∧
    (Null.Undefined : Nulls.Null T).update_to slot = slot :=
  ⟨rfl, rfl, rfl⟩

/-- C2: deserializing a `Null` field never returns an error: a wire-level
`null` yields the `Null` variant, a non-null value that parses as `T`
yields `Value`, a non-null value that fails to parse yields `Undefined`,
and an unreadable raw input also yields `Undefined`. -/
theorem deserialize_never_fails {T : Type} (dec : JValue → Except String T)
    (raw : Except String JValue) :
    Null.deserialize dec raw =
      .ok (match raw with
           | .error _ => Null.Undefined
           | .ok .null => Null.Null
           | .ok j =>
             match dec j with
             | .ok v => Null.Value v
             | .error _ => Null.Undefined) := by
  cases raw with
  | error e => rfl
  | ok j =>
    cases j with
    | null => rfl
    | bool b => cases hd : dec (JValue.bool b) <;> simp [Null.deserialize, hd]
    | num n => cases hd : dec (JValue.num n) <;> simp [Null.deserialize, hd]
    | str s => cases hd : dec (JValue.str s) <;> simp [Null.deserialize, hd]
    | arr xs => cases hd : dec (JValue.arr xs) <;> simp [Null.deserialize, hd]
    | obj fs => cases hd : dec (JValue.obj fs) <;> simp [Null.deserialize, hd]

/-- C3: decoding a column value yields the `Null` variant when the column
is NULL (never `Undefined`); a non-NULL column decodes via `T`'s decoder
wrapped in `Value`, and a decoder failure propagates as a decode error;
no decode ever produces the `Undefined` (absent) variant. -/
theorem decode_spec {α T : Type} (decT : PgValueRef α → Except String T)
    (value : PgValueRef α) :
    (value.is_null = true → Null.decode decT value = .ok Null.Null) ∧
    (value.is_null = false →
      Null.decode decT value = (decT value).map Null.Value) ∧
    (∀ s, Null.decode decT value = .ok s → s ≠ Null.Undefined) := by
  refine ⟨fun h => by simp [Null.decode, h], fun h => by simp [Null.decode, h], ?_⟩
  intro s hs
  unfold Null.decode at hs
  by_cases h : value.is_null
  · simp [h] at hs
    simp [hs.symm]
  · simp [h] at hs
    cases hd : decT value with
    | ok t =>
      rw [hd] at hs
      simp [Except.map] at hs
      simp [hs.symm]
    | error e =>
      rw [hd] at hs
      simp [Except.map] at hs

/-- C3 witness: a NULL column decodes to the `Null` variant, and a
non-NULL column whose inner decoder fails propagates the error. -/
theorem decode_spec_witness :
    Null.decode (fun _ => (.ok 3 : Except String Nat))
      (⟨true, ()⟩ : PgValueRef Unit) = .ok Null.Null ∧
    Null.decode (fun _ => (.error "bad" : Except String Nat))
      (⟨false, ()⟩ : PgValueRef Unit) = .error "bad" :=
  ⟨(decode_spec (fun _ => (.ok 3 : Except String Nat)) ⟨true, ()⟩).1 rfl,
   ((decode_spec (fun _ => (.error "bad" : Except String Nat)) ⟨false, ()⟩).2.1 rfl).trans rfl⟩

/-- C4: converting a fallible lookup result maps `Ok v` to `Value v` and
every error, whatever its detail, to the `Null` variant (never
`Undefined`, never a propagated error); the `Json`-unwrapping variant
maps `Ok (Json v)` to `Value v` likewise. -/
theorem fromResult_spec {T ε : Type} (v : T) (e : ε) (w : Json T) :
    Null.fromResult (.ok v : Except ε T) = Null.Value v ∧
    Null.fromResult (.error e : Except ε T) = Null.Null ∧
    Null.fromResultJson (.ok w : Except ε (Json T)) = Null.Value w.val ∧
    Null.fromResultJson (.error e : Except ε (Json T)) = Null.Null :=
  ⟨rfl, rfl, rfl, rfl⟩

/-- C5: the nested-optional conversion maps `Undefined` to `none`, `Null`
to `some none` and `Value v` to `some (some v)`, and the conversion back
is its exact inverse in both directions. -/
theorem nested_option_round_trip {T : Type} (v : T) (s : Nulls.Null T)
    (x : Option (Option T)) :
    Null.toNestedOption (Null.Undefined : Nulls.Null T) = none ∧
    Null.toNestedOption (Null.Null : Nulls.Null T) = some none ∧
    Null.toNestedOption (Null.Value v) = some (some v) ∧
    Null.fromNestedOption (Null.toNestedOption s) = s ∧
    Null.toNestedOption (Null.fromNestedOption x) = x := by
  refine ⟨rfl, rfl, rfl, ?_, ?_⟩
  · cases s <;> rfl
  · rcases x with _ | (_ | y) <;> rfl

/-- C6: `map` feeds `some v` to `f` on `Value v` and `none` on `Null`,
wrapping a `some` result in `Value` and turning a `none` result into
`Null`; on `Undefined` the result is `Undefined` and is the same for
every function, i.e. `f` is never consulted. -/
theorem map_spec {T U : Type} (f g : Option T → Option U) (v : T) :
    ((Null.Value v).map f =
      match f (some v) with
      | some u => Null.Value u
      | none => Null.Null) ∧
    ((Null.Null : Nulls.Null T).map f =
      match f none with
      | some u => Null.Value u
      | none => Null.Null) ∧
    ((Null.Undefined : Nulls.Null T).map f = Null.Undefined) ∧
    ((Null.Undefined : Nulls.Null T).map f = (Null.Undefined : Nulls.Null T).map g) :=
  ⟨rfl, rfl, rfl, rfl⟩

/-- C7: both the serde serializer and the Postgres encoder collapse the
non-value states: `Value v` produces exactly `v`'s own standalone
encoding, while `Undefined` and `Null` both produce the wire-level null
marker (serde) or SQL NULL with an untouched buffer (Postgres), so the
two states are indistinguishable in the encoded output. -/
theorem encode_collapse {T β : Type} (serT : T → JValue)
    (encT : T → β → β × Except String IsNull) (v : T) (buf : β) :
    (Null.Value v).serialize serT = serT v ∧
    (Null.Undefined : Nulls.Null T).serialize serT = JValue.null ∧
    (Null.Null : Nulls.Null T).serialize serT = JValue.null ∧
    (Null.Value v).encode_by_ref encT buf = encT v buf ∧
    (Null.Undefined : Nulls.Null T).encode_by_ref encT buf = (buf, .ok IsNull.yes) ∧
    (Null.Null : Nulls.Null T).encode_by_ref encT buf = (buf, .ok IsNull.yes) :=
  ⟨rfl, rfl, rfl, rfl, rfl, rfl⟩

/-- C8: converting a plain optional maps `some v` to `Value v` and `none`
to `Undefined`; no input ever produces the `Null` variant. -/
theorem fromOption_spec {T : Type} (v : T) (x : Option T) :
    Null.fromOption (some v) = Null.Value v ∧
    Null.fromOption (none : Option T) = Null.Undefined ∧
    Null.fromOption x ≠ Null.Null := by
  refine ⟨rfl, rfl, ?_⟩
  cases x <;> simp [Null.fromOption]

/-- C9: `contains s x` is true exactly when `s` is `Value v` with
`x = some v`, or `s` is `Null` with `x = none`; on `Undefined` it is
false for every `x`. -/
theorem contains_spec {T : Type} [DecidableEq T] (s : Nulls.Null T) (x : Option T) :
    (s.contains x = true ↔
      (∃ v, s = Null.Value v ∧ x = some v) ∨ (s = Null.Null ∧ x = none)) ∧
    (Null.Undefined : Nulls.Null T).contains x = false := by
  constructor
  · cases s <;> cases x <;> simp [Null.contains]
  · rfl

/-- C10: composed wire round trip: provided `T`'s serializer never emits
the null marker and its deserializer inverts it, serializing then
deserializing sends `Undefined` and `Null` both to the `Null` variant
(absence never survives) and `Value v` back to `Value v`; and for a
serializer that does emit the null marker on `v`, `Value v` collapses to
the `Null` variant as well. -/
theorem wire_round_trip {T : Type} (serT : T → JValue)
    (dec : JValue → Except String T) (s : Nulls.Null T) (v : T)
    (hnn : ∀ w, serT w ≠ JValue.null)
    (hrt : ∀ w, dec (serT w) = .ok w) :
    (Null.deserialize dec (.ok (s.serialize serT)) =
      .ok (match s with
           | .Value w => Null.Value w
           | _ => Null.Null)) ∧
    (∀ serU : T → JValue, serU v = JValue.null →
      Null.deserialize dec (.ok ((Null.Value v).serialize serU)) = .ok Null.Null) := by
  constructor
  · cases s with
    | Undefined => rfl
    | Null => rfl
    | Value w =>
      have hw := hrt w
      have hne := hnn w
      show Null.deserialize dec (.ok (serT w)) = .ok (Null.Value w)
      cases h : serT w with
      | null => exact absurd h hne
      | bool b => rw [h] at hw; simp [Null.deserialize, hw]
      | num n => rw [h] at hw; simp [Null.deserialize, hw]
      | str t => rw [h] at hw; simp [Null.deserialize, hw]
      | arr xs => rw [h] at hw; simp [Null.deserialize, hw]
      | obj fs => rw [h] at hw; simp [Null.deserialize, hw]
  · intro serU hU
    show Null.deserialize dec (.ok (serU v)) = .ok Null.Null
    rw [hU]
    rfl

/-- C10 witness: with the concrete `Nat` serializer and deserializer,
`Value 5` round-trips to `Value 5` and `Undefined` lands on the `Null`
variant. -/
theorem wire_round_trip_witness :
    Null.deserialize decNat (.ok ((Null.Value 5).serialize serNat)) = .ok (Null.Value 5) ∧
    Null.deserialize decNat (.ok ((Null.Undefined : Nulls.Null Nat).serialize serNat)) =
      .ok Null.Null := by
  have h1 := wire_round_trip serNat decNat (Null.Value 5) 5
    (fun w => by simp [serNat]) (fun w => rfl)
  have h2 := wire_round_trip serNat decNat (Null.Undefined : Nulls.Null Nat) 5
    (fun w => by simp [serNat]) (fun w => rfl)
  exact ⟨h1.1, h2.1⟩

end Nulls
